import Mathlib

/-!
Verification of the clonejs prototype-based OOP framework (src/clone.js).

The development shallowly embeds the parts of the code that the checked
properties talk about:

* the descriptor compiler `$object.describe` (clone.js lines 133-201),
* the super-dispatch controller `$object._applySuper` (lines 210-241),
* `$object.create` / the default `CloneObject` constructor (lines 95-112),
* the deep-method normalization of `$object.copy` (lines 379-427),
* `$object.mix` of the legacy revision (lines 1046-1098).

JavaScript values are modeled by the inductive `JSVal`; property maps are
association lists in insertion order (JS for-in order for string keys);
descriptor objects are a record of optional fields, where `none` models an
absent own key and read-through to the `$defaultDescriptor` layer models
the `Object.create($defaultDescriptor)` prototype link.
-/

namespace CloneJS

/-- JavaScript runtime values, as far as the framework inspects them.
`fn id` is an opaque function value (identity by `id`); `autoGetter p` and
`autoSetter p` are the accessor closures that `describe` synthesizes for a
string-valued `(get)`/`(set)` entry (they forward to property `p`). -/
inductive JSVal where
  | undefV
  | nullV
  | jsbool (b : Bool)
  | num (n : Int)
  | str (s : String)
  | fn (id : Nat)
  | autoGetter (propName : String)
  | autoSetter (propName : String)
  | objRef (id : Nat)
  deriving Repr, DecidableEq

/-- JavaScript ToBoolean on the modeled values. -/
def truthy : JSVal → Bool
  | .undefV => false
  | .nullV => false
  | .jsbool b => b
  | .num n => decide (n ≠ 0)
  | .str s => decide (s ≠ "")
  | _ => true

/-- Whether `typeof v == 'function'`. -/
def isFunctionVal : JSVal → Bool
  | .fn _ => true
  | .autoGetter _ => true
  | .autoSetter _ => true
  | _ => false

/-- Whether `typeof v == 'string'`. -/
def isStringVal : JSVal → Bool
  | .str _ => true
  | _ => false

/-- Whether `typeof v == 'object'` (true for object references and null). -/
def isObjectTypeof : JSVal → Bool
  | .objRef _ => true
  | .nullV => true
  | _ => false

/-- String payload of a value known to be a string (used for the
auto-accessor sugar, where the code captured `hiddenPropertyName`). -/
def asString : JSVal → String
  | .str s => s
  | _ => ""

/-- Whether the JS expression `s[0] == c` holds (`s[0]` of an empty string
is `undefined`, which compares unequal to any character). -/
def headIs (s : String) (c : Char) : Bool :=
  match s.toList with
  | [] => false
  | c0 :: _ => decide (c0 = c)

/-- Property descriptor, own layer only.  Each field is `none` when the
descriptor object has no own key of that name.  Reads in the source go
through the prototype link to the `$defaultDescriptor` layer, modeled by
`readThrough` below. -/
structure Descriptor where
  enumerable : Option JSVal := none
  configurable : Option JSVal := none
  writable : Option JSVal := none
  value : Option JSVal := none
  get : Option JSVal := none
  set : Option JSVal := none
  deriving Repr, DecidableEq

/-- Read a descriptor field through the prototype link: own key first, then
the default layer, and `undefined` when neither has it. -/
def readThrough (own defaultLayer : Option JSVal) : JSVal :=
  match own with
  | some v => v
  | none => defaultLayer.getD .undefV

/-- The baseline `$defaultDescriptor` allocated when no explicit defaults
are given (clone.js lines 136-140). -/
def baselineDescriptor : Descriptor :=
  { configurable := some (.jsbool true)
    enumerable := some (.jsbool true)
    writable := some (.jsbool true) }

/-- The `$defaultDescriptor` layer actually used by `describe`: the given
defaults object, or the all-true baseline when none is passed. -/
def defaultLayer (defaults : Option Descriptor) : Descriptor :=
  defaults.getD baselineDescriptor

/-- Effective `enumerable` attribute of a compiled record (own layer, then
the `$defaultDescriptor` layer, then `undefined`). -/
def effEnumerable (d : Descriptor) (defaults : Option Descriptor) : JSVal :=
  readThrough d.enumerable (defaultLayer defaults).enumerable

/-- Effective `writable` attribute of a compiled record. -/
def effWritable (d : Descriptor) (defaults : Option Descriptor) : JSVal :=
  readThrough d.writable (defaultLayer defaults).writable

/-- Effective `configurable` attribute of a compiled record. -/
def effConfigurable (d : Descriptor) (defaults : Option Descriptor) : JSVal :=
  readThrough d.configurable (defaultLayer defaults).configurable

/-- Effective `value` attribute of a compiled record. -/
def effValue (d : Descriptor) (defaults : Option Descriptor) : JSVal :=
  readThrough d.value (defaultLayer defaults).value

/-! ### The annotated-name grammar

The source matches keys against the regular expression
`^\((((get|set|const|hidden|final|writable) *)+)\) +(.+)$` (line 150).
No flag word is a prefix of another (all first letters differ), so the
alternation is deterministic and we can parse by repeatedly stripping one
flag word and any following spaces until the closing parenthesis. -/

/-- The six recognized flag words, in the order of the source alternation. -/
def flagWords : List String := ["get", "set", "const", "hidden", "final", "writable"]

/-- Strip word `w` from the front of `cs`, if present. -/
def matchWord (w : String) (cs : List Char) : Option (List Char) :=
  let ws := w.toList
  if cs.take ws.length = ws then some (cs.drop ws.length) else none

/-- Strip one flag word from the front of `cs`, if one matches. -/
def stripOneFlag (cs : List Char) : Option (String × List Char) :=
  flagWords.findSome? (fun w => (matchWord w cs).map (fun rest => (w, rest)))

/-- Parse `((flag) *)+\)`: one or more flag words, each followed by any
number of spaces, then the closing parenthesis.  Returns the flag words in
source order and the characters after the parenthesis.  The `split(' ')`
of the source can yield empty tokens for repeated spaces, but those match
no case of the flag switch, so dropping them here is behavior-preserving. -/
def parseFlags : Nat → List Char → List String → Option (List String × List Char)
  | 0, _, _ => none
  | fu + 1, cs, acc =>
    match stripOneFlag cs with
    | none => none
    | some (w, rest) =>
      let rest2 := rest.dropWhile (· = ' ')
      match rest2 with
      | ')' :: after => some (acc ++ [w], after)
      | _ => parseFlags fu rest2 (acc ++ [w])

/-- Match a property key against the annotated-name grammar.  Returns the
flag words and the bare name, or `none` for a literal (unannotated) key.
After the parenthesis the pattern requires `' +(.+)'`: at least one space
and a nonempty remainder; by greedy matching with backtracking, when only
spaces remain the final space becomes the (degenerate) bare name. -/
def parseAnnotatedName (name : String) : Option (List String × String) :=
  match name.toList with
  | '(' :: cs =>
    match parseFlags cs.length cs [] with
    | none => none
    | some (flags, after) =>
      let sp := after.takeWhile (· = ' ')
      let rest := after.dropWhile (· = ' ')
      if sp = [] then none
      else if rest ≠ [] then some (flags, String.mk rest)
      else if sp.length ≥ 2 then some (flags, " ")
      else none
  | _ => none

/-- Code-unit comparison of character lists, as the JS default sort
comparator orders strings. -/
def charListLe : List Char → List Char → Bool
  | [], _ => true
  | _ :: _, [] => false
  | a :: as, b :: bs =>
    if a.toNat < b.toNat then true
    else if b.toNat < a.toNat then false
    else charListLe as bs

/-- String order used by `Array.prototype.sort`. -/
def strLe (a b : String) : Bool := charListLe a.toList b.toList

/-- Insert a string into an ascending list (JS default sort is
lexicographic on the string elements). -/
def insertSorted (s : String) : List String → List String
  | [] => [s]
  | t :: ts => if strLe s t then s :: t :: ts else t :: insertSorted s ts

/-- Sort a list of strings ascending, as `Array.prototype.sort` does for
the flag tokens. -/
def sortStrings (l : List String) : List String := l.foldr insertSorted []

/-- Lookup in an association list of descriptors (the `descriptors` object
being accumulated). -/
def alookup (l : List (String × Descriptor)) (k : String) : Option Descriptor :=
  match l with
  | [] => none
  | (k0, d) :: rest => if k0 = k then some d else alookup rest k

/-- Update the entry for `k`, or append it, keeping first-insertion order
as JS objects do. -/
def aupdate (l : List (String × Descriptor)) (k : String) (d : Descriptor) :
    List (String × Descriptor) :=
  match l with
  | [] => [(k, d)]
  | (k0, d0) :: rest =>
    if k0 = k then (k, d) :: rest else (k0, d0) :: aupdate rest k d

/-- Apply one flag token to a descriptor (the switch at lines 157-164);
`value` is the raw entry value captured by the `get`/`set` cases. -/
def applyFlag (value : JSVal) (d : Descriptor) (flag : String) : Descriptor :=
  if flag = "const" then { d with writable := some (.jsbool false) }
  else if flag = "final" then
    { d with configurable := some (.jsbool false), writable := some (.jsbool false) }
  else if flag = "get" then { d with get := some value }
  else if flag = "hidden" then { d with enumerable := some (.jsbool false) }
  else if flag = "set" then { d with set := some value }
  else if flag = "writable" then { d with writable := some (.jsbool true) }
  else d

/-- Lines 168-195 of the loop body: given the raw `value`, the bare
`name` and the descriptor `d0` produced by the flag phase, run the
accessor-vs-data branch and the implicit-hiding rule, yielding the record
stored under `name`. -/
def finishEntry (dflt : Descriptor) (hidingAllowed : Bool) (value : JSVal)
    (name : String) (d0 : Descriptor) : Descriptor :=
  let gv := readThrough d0.get dflt.get
  let sv := readThrough d0.set dflt.set
  let d1 :=
    if truthy gv || truthy sv then
      let dAcc :=
        if isStringVal value then
          let hiddenPropertyName := asString value
          if isStringVal gv then { d0 with get := some (.autoGetter hiddenPropertyName) }
          else { d0 with set := some (.autoSetter hiddenPropertyName) }
        else d0
      { dAcc with value := some .undefV }
    else { d0 with value := some value }
  let value1 :=
    if truthy gv || truthy sv then
      if truthy (readThrough d1.get dflt.get) then JSVal.undefV else value
    else value
  if (hidingAllowed && isFunctionVal value1) || headIs name '_' then
    { d1 with enumerable := some (.jsbool false) }
  else d1

/-- One raw entry of the property map, resolved to the bare name and the
record stored under it (loop body of `describe`, lines 144-196). -/
def describeEntry (dflt : Descriptor) (hidingAllowed : Bool)
    (acc : List (String × Descriptor)) (entry : String × JSVal) :
    String × Descriptor :=
  match parseAnnotatedName entry.1 with
  | none => (entry.1, finishEntry dflt hidingAllowed entry.2 entry.1 {})
  | some (flags, bare) =>
    let dStart :=
      match alookup acc bare with
      | some dExisting => dExisting
      | none => ({} : Descriptor)
    (bare,
      finishEntry dflt hidingAllowed entry.2 bare
        ((sortStrings flags).foldl (applyFlag entry.2) dStart))

/-- Process one raw entry: resolve it and store the record under the bare
name, merging into the accumulated `descriptors` object. -/
def describeStep (dflt : Descriptor) (hidingAllowed : Bool)
    (acc : List (String × Descriptor)) (entry : String × JSVal) :
    List (String × Descriptor) :=
  let p := describeEntry dflt hidingAllowed acc entry
  aupdate acc p.1 p.2

/-- The descriptor compiler `$object.describe` (lines 133-201).  The
result maps bare names to own-layer descriptors; effective attributes are
read relative to `defaultLayer defaults` (the shared prototype of every
record). -/
def describe (props : List (String × JSVal)) (defaults : Option Descriptor) :
    List (String × Descriptor) :=
  let dflt := defaultLayer defaults
  let hidingAllowed :=
    match defaults with
    | none => true
    | some dd => !(truthy (dd.enumerable.getD .undefV))
  props.foldl (describeStep dflt hidingAllowed) []

/-! ### The super-dispatch controller `_applySuper` (clone.js lines 210-241)

A delegation chain is modeled as a list of levels: index 0 is the instance
the method was invoked on, index `i + 1` is the prototype of index `i`,
and indices past the end stand for the unmodeled upper region of the real
chain (each scenario below includes explicit empty levels for every object
its run can reach, so the boundary is never hit mid-dispatch).  Each level
maps method names to bodies in a small instruction language: the bodies
the checked scenarios need are appends to a shared log, calls to
`this._applySuper(m)`, and `throw`. -/

/-- Instruction of a method body. -/
inductive Instr where
  | logName (s : String)
  | applySuper (m : String)
  | throwErr
  deriving Repr, DecidableEq

/-- One level of the delegation chain: its own methods. -/
abbrev Level := List (String × List Instr)

/-- Mutable state visible to a dispatch: the instance's `__super__` slot
and the shared log.  `superSlot = none` models `'__super__' in this`
being false; `some c` models the slot holding cursor `c`, where the cursor
is a chain index or `none` for a reference outside the modeled levels. -/
structure DState where
  superSlot : Option (Option Nat) := none
  log : List String := []
  deriving Repr, DecidableEq

/-- Error outcomes: a body executed `throw`; `savedSuper[methodName]` was
`undefined` and calling it raised a TypeError (the propagated lookup
failure); a TypeError from `Object.getPrototypeOf` on a non-object; or the
interpreter fuel ran out (an artifact of the embedding, never reached by
the scenarios below). -/
inductive DErrKind where
  | thrown
  | noSuchMethod
  | typeError
  | outOfFuel
  deriving Repr, DecidableEq

/-- Outcome of a run; exceptional outcomes carry the state at the point of
the throw, because the mutations to the shared slot and log persist when a
JS exception propagates. -/
inductive DOut where
  | ok (st : DState)
  | err (e : DErrKind) (st : DState)
  deriving Repr, DecidableEq

/-- `Object.getPrototypeOf` within the modeled chain. -/
def protoIdx (chainLen i : Nat) : Option Nat :=
  if i + 1 < chainLen then some (i + 1) else none

/-- The lazy-initialization value of the cursor:
`Object.getPrototypeOf(Object.getPrototypeOf(this))` for the instance at
index 0 (line 219). -/
def grandProto (chainLen : Nat) : Option Nat :=
  match protoIdx chainLen 0 with
  | none => none
  | some p => protoIdx chainLen p

/-- Lazy initialization of `__super__` (lines 218-229): when the slot does
not yet exist it is defined holding the instance's parent's parent. -/
def initSlot (chain : List Level) (st : DState) : DState :=
  match st.superSlot with
  | some _ => st
  | none => { st with superSlot := some (grandProto chain.length) }

/-- Find the first level of `levels` defining method `m`, with its offset. -/
def findFrom (levels : List Level) (m : String) : Option (Nat × List Instr) :=
  match levels with
  | [] => none
  | lv :: rest =>
    match (lv.find? (fun p => p.1 = m)).map (fun p => p.2) with
    | some b => some (0, b)
    | none => (findFrom rest m).map (fun p => (p.1 + 1, p.2))

/-- Property lookup of method `m` starting at chain index `i` (the read
`savedSuper[methodName]`, which walks the prototype chain). -/
def lookupMethod (chain : List Level) (i : Nat) (m : String) :
    Option (Nat × List Instr) :=
  (findFrom (chain.drop i) m).map (fun p => (i + p.1, p.2))

/-- The body of `_applySuper` (lines 218-240), parameterized by the
evaluator `ev` used to run the target method's body: lazily initialize the
slot, save the cursor, advance it one level up, invoke the target method,
and restore the saved cursor — on normal return only.  The source has no
try/finally around the invocation, so when the callee throws, the error
propagates with the cursor still advanced. -/
def applySuperGen (chain : List Level) (ev : List Instr → DState → DOut)
    (m : String) (st0 : DState) : DOut :=
  let st := initSlot chain st0
  match st.superSlot with
  | none => .err .typeError st
  | some savedSuper =>
    match savedSuper with
    | none => .err .typeError st
    | some sIdx =>
      let st1 := { st with superSlot := some (protoIdx chain.length sIdx) }
      match lookupMethod chain sIdx m with
      | none => .err .noSuchMethod st1
      | some (_, body) =>
        match ev body st1 with
        | .ok st2 => .ok { st2 with superSlot := some savedSuper }
        | .err e st2 => .err e st2

/-- Run a method body.  The fuel bounds the total number of executed
instructions; every scenario below is run with ample fuel, so the
`outOfFuel` artifact is never reached. -/
def runBody (chain : List Level) : Nat → List Instr → DState → DOut
  | _, [], st => .ok st
  | 0, _ :: _, st => .err .outOfFuel st
  | fuel + 1, instr :: rest, st =>
    match instr with
    | .logName s => runBody chain fuel rest { st with log := st.log ++ [s] }
    | .throwErr => .err .thrown st
    | .applySuper m =>
      match applySuperGen chain (fun b s => runBody chain fuel b s) m st with
      | .ok st1 => runBody chain fuel rest st1
      | .err e st1 => .err e st1

/-- Invoke method `m` on the instance (chain index 0) by ordinary property
lookup, as `instance.m()` does; this touches no cursor state by itself. -/
def invokeMethod (chain : List Level) (fuel : Nat) (m : String) (st : DState) :
    DOut :=
  match lookupMethod chain 0 m with
  | none => .err .noSuchMethod st
  | some (_, body) => runBody chain fuel body st

/-! ### Objects, `create`, sealing (clone.js lines 95-112) -/

/-- A heap object: parent link, own data properties, seal flag. -/
structure JSObj where
  protoId : Option Nat
  props : List (String × JSVal)
  sealedFlag : Bool
  deriving Repr, DecidableEq

/-- The heap: object ids are list indices. -/
abbrev Heap := List JSObj

/-- Read an own property. -/
def getOwn (o : JSObj) (k : String) : Option JSVal :=
  (o.props.find? (fun p => p.1 = k)).map (fun p => p.2)

/-- Update or append an own property, keeping insertion order. -/
def aupdateV (l : List (String × JSVal)) (k : String) (v : JSVal) :
    List (String × JSVal) :=
  match l with
  | [] => [(k, v)]
  | (k0, v0) :: rest =>
    if k0 = k then (k, v) :: rest else (k0, v0) :: aupdateV rest k v

/-- Property read through the prototype chain, with fuel bounding the walk
(every heap below is acyclic and read with fuel `h.length + 1`). -/
def propRead (h : Heap) : Nat → Nat → String → Option JSVal
  | 0, _, _ => none
  | fuel + 1, i, k =>
    match h.get? i with
    | none => none
    | some o =>
      match getOwn o k with
      | some v => some v
      | none =>
        match o.protoId with
        | some p => propRead h fuel p k
        | none => none

/-- Allocate a fresh object, returning its id. -/
def allocObj (h : Heap) (o : JSObj) : Heap × Nat := (h ++ [o], h.length)

/-- `$object.clone()` with no arguments (lines 61-76, `arguments.length`
zero): `Object.create(this)` — a fresh delegate with no own properties. -/
def cloneEmptyOp (h : Heap) (protoId : Nat) : Heap × Nat :=
  allocObj h ⟨some protoId, [], false⟩

/-- `Object.seal(this)` (line 110). -/
def sealOp (h : Heap) (i : Nat) : Heap :=
  match h.get? i with
  | none => h
  | some o => h.set i { o with sealedFlag := true }

/-- Outcome of a host mutation primitive: success with the new heap, or
the IllegalMutation failure surfaced by the host. -/
inductive MutResult where
  | ok (h : Heap)
  | illegalMutation
  deriving Repr, DecidableEq

/-- Adding an own property: fails on a sealed object when the property is
not already own (the IllegalMutation surfaced by the host). -/
def addOwnProp (h : Heap) (i : Nat) (k : String) (v : JSVal) : MutResult :=
  match h.get? i with
  | none => .illegalMutation
  | some o =>
    if o.sealedFlag && (getOwn o k).isNone then .illegalMutation
    else .ok (h.set i { o with props := aupdateV o.props k v })

/-- Behavior of a constructor function value, keyed by function id.
`defaultCtor` is `CloneObject` invoked with no arguments (lines 106-112):
it skips `defineProperties` (no `properties` argument) and seals the
object when `this.constructor === CloneObject`.  `customReturning ret`
is a user constructor overriding the default that performs no mutation
and returns `ret`. -/
inductive CtorBehavior where
  | defaultCtor
  | customReturning (ret : JSVal)

/-- Apply the constructor function `fnId` to object `objId`. -/
def runCtor (table : Nat → CtorBehavior) (h : Heap) (objId fnId : Nat) :
    Heap × JSVal :=
  match table fnId with
  | .defaultCtor =>
    let h1 :=
      if propRead h (h.length + 1) objId "constructor" = some (.fn fnId) then
        sealOp h objId
      else h
    (h1, .undefV)
  | .customReturning ret => (h, ret)

/-- `$object.create` (lines 95-98): clone with no arguments, then apply
the resulting object's `constructor`; a truthy constructor return value is
the result, otherwise the freshly cloned object is.  Returns `none` when
the resolved `constructor` is not a function value (a TypeError, never hit
below). -/
def createOp (table : Nat → CtorBehavior) (h : Heap) (protoId : Nat) :
    Option (Heap × JSVal) :=
  let p := cloneEmptyOp h protoId
  match propRead p.1 (p.1.length + 1) p.2 "constructor" with
  | some (.fn k) =>
    let r := runCtor table p.1 p.2 k
    some (r.1, if truthy r.2 then r.2 else .objRef p.2)
  | _ => none

/-! ### The deep-method guard of `copy` (clone.js lines 379-427) -/

/-- Line 386: `if( deepMethod != 'deepCopy' || deepMethod != 'deepClone')
deepMethod = null`.  The embedding mirrors the disjunction as written. -/
def normalizeDeepMethod (deepMethod : Option String) : Option String :=
  if deepMethod ≠ some "deepCopy" ∨ deepMethod ≠ some "deepClone" then none
  else deepMethod

/-- Lines 416-418: when a deep method is in effect and the own property is
object-typed, its copied value is the deep-processed object (`deepFn`
abstracts `$object[deepMethod]`); otherwise the reference is copied. -/
def processOwnProp (deepFn : JSVal → JSVal) (deepMethod : Option String)
    (v : JSVal) : JSVal :=
  if deepMethod.isSome && isObjectTypeof v then deepFn v else v

/-- The own-property copying of one level of `copy` (lines 386, 411-421):
normalize the deep-method argument, then copy each own property, deep
processing object-typed values when a deep method survived normalization. -/
def copyOwnProps (deepFn : JSVal → JSVal) (deepMethodArg : Option String)
    (props : List (String × JSVal)) : List (String × JSVal) :=
  let dm := normalizeDeepMethod deepMethodArg
  props.map (fun p => (p.1, processOwnProp deepFn dm p.2))

/-! ### `mix` of the legacy revision (clone.js lines 1046-1098) -/

/-- Set an own property unconditionally (`Object.defineProperty`,
line 1093; the scenario objects are unsealed). -/
def defineOwn (h : Heap) (i : Nat) (k : String) (v : JSVal) : Heap :=
  match h.get? i with
  | none => h
  | some o => h.set i { o with props := aupdateV o.props k v }

/-- Copy all own properties of source object `srcId` onto `updateObj`:
the inner loop at lines 1090-1094. -/
def mixCopyProps (h : Heap) (updateObj srcId : Nat) : Heap :=
  match h.get? srcId with
  | none => h
  | some src => src.props.foldl (fun hh p => defineOwn hh updateObj p.1 p.2) h

/-- Process one mixed-in source (loop body, lines 1076-1095): when
`copyNesting` and the source has own properties, `updateObj` becomes a
fresh clone delegating to the previous one; then the source's own
properties are installed on it. -/
def mixStep (copyNesting : Bool) (acc : Heap × Nat) (srcId : Nat) : Heap × Nat :=
  let ownNames : List String :=
    match acc.1.get? srcId with
    | none => []
    | some src => src.props.map (fun p => p.1)
  let acc1 :=
    if copyNesting && !ownNames.isEmpty then allocObj acc.1 ⟨some acc.2, [], false⟩
    else acc
  (mixCopyProps acc1.1 acc1.2 srcId, acc1.2)

/-- `$object.mix` applied to an explicit array of sources: the array is
reversed (line 1072) and each source processed in the resulting order,
starting from the receiver `targetId`.  Returns the final `updateObj`. -/
def mixOp (h : Heap) (targetId : Nat) (srcIds : List Nat) (copyNesting : Bool) :
    Heap × Nat :=
  srcIds.reverse.foldl (mixStep copyNesting) (h, targetId)

/-! ### Concrete scenarios used by the theorems -/

/-- Chain `A ← B ← C` with an instance whose parent is `C`: index 0 the
instance (no own methods), 1 = `C`, 2 = `B`, 3 = `A`, each defining `m`
that appends its own name to the log and then calls `_applySuper('m')`;
indices 4 and 5 model the method-free `$object` root and
`Object.prototype` above `A`. -/
def chainABC : List Level :=
  [ [],
    [("m", [.logName "C", .applySuper "m"])],
    [("m", [.logName "B", .applySuper "m"])],
    [("m", [.logName "A", .applySuper "m"])],
    [],
    [] ]

/-- Chain `A ← B` with an instance whose parent is `B`: `B.m` logs and
then calls `_applySuper('m')` twice sequentially; `A.m` (index 2) only
logs; index 3 is the method-free root. -/
def chainAB : List Level :=
  [ [],
    [("m", [.logName "B", .applySuper "m", .applySuper "m"])],
    [("m", [.logName "A"])],
    [] ]

/-- Chain `A ← B` where `B.m` dispatches to `A.m`, which throws. -/
def chainThrow : List Level :=
  [ [],
    [("m", [.logName "B", .applySuper "m"])],
    [("m", [.throwErr])],
    [] ]

/-- Tiny chain used to witness the restore-on-normal-return theorem. -/
def chainOk : List Level := [[], [("m", [.logName "A"])], []]

/-- Constructor-behavior table for the `create` scenarios: function 0 is
the default `CloneObject`, function 1 a custom constructor returning
`undefined` (skipping the seal), function 2 a custom constructor returning
the (truthy) object reference 5. -/
def demoTable : Nat → CtorBehavior := fun k =>
  if k = 0 then .defaultCtor
  else if k = 1 then .customReturning .undefV
  else .customReturning (.objRef 5)

/-- Heap with only the `$object`-like root (default constructor). -/
def heapA : Heap := [⟨none, [("constructor", .fn 0)], false⟩]

/-- Root plus a prototype overriding `constructor` with function 1. -/
def heapB : Heap :=
  [⟨none, [("constructor", .fn 0)], false⟩,
   ⟨some 0, [("constructor", .fn 1)], false⟩]

/-- Root plus a prototype overriding `constructor` with function 2. -/
def heapC : Heap :=
  [⟨none, [("constructor", .fn 0)], false⟩,
   ⟨some 0, [("constructor", .fn 2)], false⟩]

/-- The heap after `create()` on `heapA`: the fresh instance (id 1) is
sealed by the default constructor. -/
def heapASealed : Heap :=
  [⟨none, [("constructor", .fn 0)], false⟩,
   ⟨some 0, [], true⟩]

/-- The heap after `create()` on `heapB`: the fresh instance (id 2) is
left unsealed by the custom constructor. -/
def heapBAfter : Heap :=
  [⟨none, [("constructor", .fn 0)], false⟩,
   ⟨some 0, [("constructor", .fn 1)], false⟩,
   ⟨some 1, [], false⟩]

/-- Heap for the `mix` scenarios: id 0 the receiver, id 1 = `Src1` with
`k ↦ 1`, id 2 = `Src2` with `k ↦ 2`. -/
def heapMix : Heap :=
  [⟨none, [], false⟩,
   ⟨none, [("k", .num 1)], false⟩,
   ⟨none, [("k", .num 2)], false⟩]

/-- Heap for the parameterized `mix` theorem: two single-property sources
sharing key `k` with values `v1` and `v2`. -/
def heapMix2 (k : String) (v1 v2 : JSVal) : Heap :=
  [⟨none, [], false⟩,
   ⟨none, [(k, v1)], false⟩,
   ⟨none, [(k, v2)], false⟩]

/-- Read property `k` on the object returned by a `mix`/`copy` style
operation (result object id paired with its heap). -/
def readResult (r : Heap × Nat) (k : String) : Option JSVal :=
  propRead r.1 (r.1.length + 1) r.2 k

/-- The record `describe` compiles for `{"(final) x": 1}` (own layer). -/
def dFinalX : Descriptor :=
  { configurable := some (.jsbool false)
    writable := some (.jsbool false)
    value := some (.num 1) }

/-- The record `describe` compiles for `{"(hidden get) y": fn}`. -/
def dHiddenGetY : Descriptor :=
  { enumerable := some (.jsbool false)
    value := some .undefV
    get := some (.fn 3) }

/-- Explicit defaults descriptor `{enumerable: true}`. -/
def ddEnumTrue : Descriptor := { enumerable := some (.jsbool true) }

/-! ### Helper lemmas -/

/-- A predicate preserved by every step of a left fold holds of the
result. -/
theorem foldl_preserves {α β : Type} (f : β → α → β) (P : β → Prop)
    (hstep : ∀ b a, P b → P (f b a)) :
    ∀ (l : List α) (b : β), P b → P (l.foldl f b) := by
  intro l
  induction l with
  | nil => intro b hb; exact hb
  | cons a rest ih => intro b hb; exact ih (f b a) (hstep b a hb)

/-- Lookup after update-or-append. -/
theorem alookup_aupdate (l : List (String × Descriptor)) (k : String)
    (d : Descriptor) (n : String) :
    alookup (aupdate l k d) n = if k = n then some d else alookup l n := by
  induction l with
  | nil =>
    by_cases h : k = n <;> simp [aupdate, alookup, h]
  | cons hd rest ih =>
    obtain ⟨k0, d0⟩ := hd
    by_cases h0 : k0 = k
    · subst h0
      by_cases h : k0 = n <;> simp [aupdate, alookup, h]
    · by_cases h : k0 = n
      · subst h
        have hkn : ¬(k = k0) := fun hh => h0 hh.symm
        simp [aupdate, alookup, h0, hkn]
      · simp [aupdate, alookup, h0, h, ih]

/-- The implicit-hiding rule forces records under a private (underscore)
bare name non-enumerable, regardless of defaults and flags. -/
theorem finishEntry_underscore (dflt : Descriptor) (hA : Bool) (v : JSVal)
    (name : String) (d0 : Descriptor) (h : headIs name '_' = true) :
    (finishEntry dflt hA v name d0).enumerable = some (.jsbool false) := by
  simp [finishEntry, h]

/-- The accessor-vs-data branch: a finished record whose (read-through)
getter or setter is truthy has its `value` key set to `undefined`. -/
theorem finishEntry_accessor_value (dflt : Descriptor) (hA : Bool) (v : JSVal)
    (name : String) (d0 : Descriptor)
    (h : (truthy (readThrough (finishEntry dflt hA v name d0).get dflt.get)
        || truthy (readThrough (finishEntry dflt hA v name d0).set dflt.set)) = true) :
    (finishEntry dflt hA v name d0).value = some .undefV := by
  cases hb : truthy (readThrough d0.get dflt.get)
      || truthy (readThrough d0.set dflt.set) with
  | false =>
    simp [finishEntry, hb, apply_ite Descriptor.get, apply_ite Descriptor.set,
      ite_self] at h
  | true =>
    simp [finishEntry, hb, apply_ite Descriptor.value, ite_self]

/-- The resolved record of any raw entry whose bare name is private is
forced non-enumerable. -/
theorem describeEntry_underscore (dflt : Descriptor) (hA : Bool)
    (acc : List (String × Descriptor)) (e : String × JSVal)
    (h : headIs (describeEntry dflt hA acc e).1 '_' = true) :
    (describeEntry dflt hA acc e).2.enumerable = some (.jsbool false) := by
  unfold describeEntry at h ⊢
  split at h
  · exact finishEntry_underscore _ _ _ _ _ h
  · exact finishEntry_underscore _ _ _ _ _ h

/-- The resolved record of any raw entry satisfies the accessor/value
dichotomy. -/
theorem describeEntry_accessor_value (dflt : Descriptor) (hA : Bool)
    (acc : List (String × Descriptor)) (e : String × JSVal)
    (h : (truthy (readThrough (describeEntry dflt hA acc e).2.get dflt.get)
        || truthy (readThrough (describeEntry dflt hA acc e).2.set dflt.set)) = true) :
    (describeEntry dflt hA acc e).2.value = some .undefV := by
  unfold describeEntry at h ⊢
  split at h
  · exact finishEntry_accessor_value _ _ _ _ _ h
  · exact finishEntry_accessor_value _ _ _ _ _ h

/-- Fold form of the underscore invariant: processing any further entries
preserves "records under private names are non-enumerable". -/
theorem describeFold_underscore (dflt : Descriptor) (hA : Bool)
    (props : List (String × JSVal)) (acc : List (String × Descriptor))
    (hbase : ∀ n d, alookup acc n = some d → headIs n '_' = true →
      d.enumerable = some (.jsbool false)) :
    ∀ n d, alookup (props.foldl (describeStep dflt hA) acc) n = some d →
      headIs n '_' = true → d.enumerable = some (.jsbool false) := by
  refine foldl_preserves (describeStep dflt hA)
    (fun b => ∀ n d, alookup b n = some d → headIs n '_' = true →
      d.enumerable = some (.jsbool false)) ?_ props acc hbase
  intro b e hP n d hl hu
  unfold describeStep at hl
  rw [alookup_aupdate] at hl
  by_cases hk : (describeEntry dflt hA b e).1 = n
  · rw [if_pos hk] at hl
    cases hl
    exact describeEntry_underscore dflt hA b e (by rw [hk]; exact hu)
  · rw [if_neg hk] at hl
    exact hP n d hl hu

/-- Fold form of the accessor/value invariant. -/
theorem describeFold_accessor (dflt : Descriptor) (hA : Bool)
    (props : List (String × JSVal)) (acc : List (String × Descriptor))
    (hbase : ∀ n d, alookup acc n = some d →
      (truthy (readThrough d.get dflt.get) || truthy (readThrough d.set dflt.set)) = true →
      d.value = some .undefV) :
    ∀ n d, alookup (props.foldl (describeStep dflt hA) acc) n = some d →
      (truthy (readThrough d.get dflt.get) || truthy (readThrough d.set dflt.set)) = true →
      d.value = some .undefV := by
  refine foldl_preserves (describeStep dflt hA)
    (fun b => ∀ n d, alookup b n = some d →
      (truthy (readThrough d.get dflt.get) || truthy (readThrough d.set dflt.set)) = true →
      d.value = some .undefV) ?_ props acc hbase
  intro b e hP n d hl hacc
  unfold describeStep at hl
  rw [alookup_aupdate] at hl
  by_cases hk : (describeEntry dflt hA b e).1 = n
  · rw [if_pos hk] at hl
    cases hl
    exact describeEntry_accessor_value dflt hA b e hacc
  · rw [if_neg hk] at hl
    exact hP n d hl hacc

/-- C1 (amended): the super-dispatch operation saves the current cursor,
advances it one level up the chain, invokes the target method, and
restores the saved cursor value when the invoked method returns normally:
the final `__super__` equals its value right after the lazy
initialization, i.e. its pre-dispatch value (for an already-initialized
slot, `initSlot` is the identity).  This holds for every chain, every
method name, every starting state and every behavior of the invoked
method.  When the invoked method throws, the source (which has no
try/finally around the invocation) skips the restore and the cursor keeps
its advanced value — see the counterexample theorem. -/
theorem applySuper_restores_on_ok (chain : List Level)
    (ev : List Instr → DState → DOut) (m : String) (st0 stR : DState)
    (h : applySuperGen chain ev m st0 = .ok stR) :
    stR.superSlot = (initSlot chain st0).superSlot := by
  simp only [applySuperGen] at h
  cases hs : (initSlot chain st0).superSlot with
  | none => rw [hs] at h; cases h
  | some saved =>
    rw [hs] at h
    cases saved with
    | none => dsimp only at h; cases h
    | some sIdx =>
      dsimp only at h
      cases hl : lookupMethod chain sIdx m with
      | none => rw [hl] at h; cases h
      | some pr =>
        obtain ⟨i, body⟩ := pr
        rw [hl] at h
        dsimp only at h
        cases hev : ev body
            { superSlot := some (protoIdx chain.length sIdx),
              log := (initSlot chain st0).log } with
        | ok st2 =>
          rw [hev] at h
          cases h
          rfl
        | err e st2 =>
          rw [hev] at h
          cases h

/-- Witness for C1 (amended): a concrete successful dispatch on `chainOk`
from an initialized cursor `some 1` ends with the cursor restored to
`some 1`. -/
theorem applySuper_restores_on_ok_witness :
    (DState.mk (some (some 1)) ["A"]).superSlot =
      (initSlot chainOk (DState.mk (some (some 1)) [])).superSlot :=
  applySuper_restores_on_ok chainOk (fun b s => runBody chainOk 5 b s) "m"
    (DState.mk (some (some 1)) []) (DState.mk (some (some 1)) ["A"]) rfl

/-- C1 (counterexample): in chain `inst → B → A` where `B.m` dispatches to
`A.m` and `A.m` throws, the run ends exceptionally with the cursor at
`some 3` (the advanced value), although immediately before the dispatch
the slot did not exist (`none`) and its lazily-initialized, saved value
was `some 2`; so after an exceptional dispatch the cursor does not equal
its value from before the dispatch. -/
theorem C1_counterexample_throw_skips_restore :
    invokeMethod chainThrow 9 "m" {} =
      .err .thrown { superSlot := some (some 3), log := ["B"] }
    ∧ (initSlot chainThrow { superSlot := none, log := ["B"] }).superSlot = some (some 2)
    ∧ (some (some 3) : Option (Option Nat)) ≠ some (some 2)
    ∧ (some (some 3) : Option (Option Nat)) ≠ none := by
  refine ⟨by decide, by decide, by decide, by decide⟩

/-- C2: on chain `A ← B ← C` where each level's `m` appends its own name
and calls `_applySuper('m')`, invoking `m` on an instance whose parent is
`C` produces the log `[C, B, A]`, each name exactly once; the first
dispatch lazily initializes the cursor to the instance's parent's parent
(index 2 = `B`).  The run ends with the lookup failure propagated from
`A`'s own dispatch (no level above `A` defines `m`), as the source
propagates it. -/
theorem C2_dispatch_order_CBA :
    invokeMethod chainABC 9 "m" {} =
      .err .noSuchMethod { superSlot := some (some 5), log := ["C", "B", "A"] }
    ∧ (initSlot chainABC {}).superSlot = some (some 2) := by
  refine ⟨by decide, by decide⟩

/-- C7: on chain `A ← B` where `B.m` calls `_applySuper('m')` twice
sequentially, both dispatches invoke `A.m` (level index 2): the log is
`[B, A, A]` — `A` reached exactly twice, `B` never re-entered — because
the cursor is restored to `some 2` between the two dispatches and after
the second. -/
theorem C7_double_dispatch_reaches_A_twice :
    invokeMethod chainAB 9 "m" {} =
      .ok { superSlot := some (some 2), log := ["B", "A", "A"] } := by decide

/-- C3: the guard `if (deepMethod != 'deepCopy' || deepMethod !=
'deepClone') deepMethod = null` at line 386 is a tautology, so the
normalized deep method is always null and `copy` never deep-processes a
nested object-valued property: whatever deep-copy function the dead branch
would have used, the copied property holds the same object reference as
the source. -/
theorem C3_deep_mode_never_applies :
    (∀ dm : Option String, normalizeDeepMethod dm = none)
    ∧ (∀ (deepFn : JSVal → JSVal) (dmArg : Option String) (oid : Nat),
      copyOwnProps deepFn dmArg [("a", .objRef oid)] = [("a", .objRef oid)]) := by
  have hz : ∀ dm : Option String, normalizeDeepMethod dm = none := by
    intro dm
    unfold normalizeDeepMethod
    rcases dm with _ | s
    · simp
    · by_cases h : s = "deepCopy"
      · subst h; simp
      · simp [h]
  exact ⟨hz, fun deepFn dmArg oid => by
    simp [copyOwnProps, hz, processOwnProp]⟩

/-- C4 (counterexample): with explicit defaults `{enumerable: true}`, the
compiled record for the private-named entry `_x` still has effective
`enumerable` false — the defaults do not opt `_`-prefixed entries out of
implicit hiding, contrary to the claim. -/
theorem C4_counterexample_private_still_hidden :
    (alookup (describe [("_x", .num 1)] (some ddEnumTrue)) "_x").map
      (fun d => effEnumerable d (some ddEnumTrue)) = some (.jsbool false)
    ∧ JSVal.jsbool false ≠ JSVal.jsbool true := by
  refine ⟨by decide, by decide⟩

/-- C4 (amended): explicit defaults with `enumerable: true` opt
function-valued entries out of implicit hiding, but entries whose bare
name begins with `_` are forced non-enumerable regardless of defaults:
(1) for every raw map and every defaults argument, every compiled record
stored under a name beginning with `_` has own `enumerable` false;
(2) a single unannotated function-valued entry under defaults with truthy
`enumerable` gets no own `enumerable` key at all (so its effective
enumerability comes from the defaults and stays true);
(3) without a defaults argument (`hidingAllowed` true), an unannotated
function-valued entry is forced non-enumerable, whatever its name — so
with no defaults both kinds (functions, by part 3, and `_`-prefixed names,
by part 1 at `defaults = none`) are forced non-enumerable. -/
theorem C4_amended_hiding_optout :
    (∀ (props : List (String × JSVal)) (defaults : Option Descriptor)
      (n : String) (d : Descriptor),
      alookup (describe props defaults) n = some d → headIs n '_' = true →
      d.enumerable = some (.jsbool false))
    ∧ (∀ (k : String) (fid : Nat) (dd : Descriptor),
      truthy (dd.enumerable.getD .undefV) = true →
      parseAnnotatedName k = none →
      headIs k '_' = false →
      (alookup (describe [(k, .fn fid)] (some dd)) k).map Descriptor.enumerable
        = some none)
    ∧ (∀ (k : String) (fid : Nat),
      parseAnnotatedName k = none →
      (alookup (describe [(k, .fn fid)] none) k).map Descriptor.enumerable
        = some (some (.jsbool false))) := by
  refine ⟨?_, ?_, ?_⟩
  · intro props defaults n d hl hu
    simp only [describe] at hl
    refine describeFold_underscore (defaultLayer defaults) _ props [] ?_ n d hl hu
    intro n0 d0 h0
    simp [alookup] at h0
  · intro k fid dd h1 h2 h3
    simp only [describe, List.foldl, describeStep, describeEntry, h2, h1,
      Bool.not_true]
    simp [alookup, aupdate, finishEntry, h3, isStringVal,
      apply_ite Descriptor.enumerable, ite_self]
  · intro k fid h2
    simp only [describe, List.foldl, describeStep, describeEntry, h2]
    simp [alookup, aupdate, finishEntry, isStringVal, isFunctionVal,
      readThrough, defaultLayer, baselineDescriptor, truthy]

/-- Witness for C4 (amended): part 1 applied to the map `{_x: 1}` with
defaults `{enumerable: true}` (whose compiled record is as computed),
part 2 applied to the map `{f: fn}` with the same defaults, and part 3
applied to the map `{g: fn}` with no defaults. -/
theorem C4_amended_hiding_optout_witness :
    (Descriptor.mk (some (.jsbool false)) none none (some (.num 1)) none none).enumerable
      = some (.jsbool false)
    ∧ (alookup (describe [("f", .fn 5)] (some ddEnumTrue)) "f").map Descriptor.enumerable
      = some none
    ∧ (alookup (describe [("g", .fn 6)] none) "g").map Descriptor.enumerable
      = some (some (.jsbool false)) :=
  ⟨C4_amended_hiding_optout.1 [("_x", .num 1)] (some ddEnumTrue) "_x"
      ⟨some (.jsbool false), none, none, some (.num 1), none, none⟩
      (by decide) (by decide),
    C4_amended_hiding_optout.2.1 "f" 5 ddEnumTrue (by decide) (by decide) (by decide),
    C4_amended_hiding_optout.2.2 "g" 6 (by decide)⟩

/-- C5 (counterexample): `mix([Src1, Src2])` with `Src1 = {k: 1}` and
`Src2 = {k: 2}` yields an object on which reading `k` gives `Src1`'s
value 1, not `Src2`'s value 2 — under nesting mode as well as flattening
mode — so the later-listed source does not win. -/
theorem C5_counterexample_later_source_loses :
    readResult (mixOp heapMix 0 [1, 2] true) "k" = some (.num 1)
    ∧ readResult (mixOp heapMix 0 [1, 2] false) "k" = some (.num 1)
    ∧ (some (JSVal.num 1) : Option JSVal) ≠ some (.num 2) := by
  refine ⟨by decide, by decide, by decide⟩

/-- C5 (amended): for every key and every pair of values, mixing two
single-property sources that share the key yields `Src1`'s value — the
earlier-listed source wins — because line 1072 reverses the source array,
so the first-listed source is processed last and its properties are
applied on top (own-property shadowing under nesting, overwriting under
flattening). -/
theorem C5_amended_first_source_wins :
    ∀ (k : String) (v1 v2 : JSVal) (nest : Bool),
      readResult (mixOp (heapMix2 k v1 v2) 0 [1, 2] nest) k = some v1 := by
  intro k v1 v2 nest
  cases nest <;>
    simp [heapMix2, mixOp, mixStep, mixCopyProps, defineOwn, allocObj, aupdateV,
      readResult, propRead, getOwn, List.find?]

/-- C6 (counterexample): the record compiled for `{"(hidden get) y": fn}`
does carry a `value` key — line 181 sets `descriptor.value = undefined`
before installing the accessor — so "no value key present at all" is
false. -/
theorem C6_counterexample_value_key_present :
    (alookup (describe [("(hidden get) y", .fn 3)] none) "y").map Descriptor.value
      = some (some .undefV)
    ∧ (some (some JSVal.undefV) : Option (Option JSVal)) ≠ some none := by
  refine ⟨by decide, by decide⟩

/-- C6 (amended): every record the compiler produces whose (read-through)
getter or setter is truthy has its `value` key explicitly set to
`undefined` (present but undefined, never a real value); in particular
`compile({"(hidden get) y": fn}).y` has `enumerable: false`, `get: fn`,
and `value` present holding `undefined`. -/
theorem C6_accessor_records_value_undefined :
    (∀ (props : List (String × JSVal)) (defaults : Option Descriptor)
      (n : String) (d : Descriptor),
      alookup (describe props defaults) n = some d →
      (truthy (readThrough d.get (defaultLayer defaults).get)
        || truthy (readThrough d.set (defaultLayer defaults).set)) = true →
      d.value = some .undefV)
    ∧ describe [("(hidden get) y", .fn 3)] none = [("y", dHiddenGetY)]
    ∧ effEnumerable dHiddenGetY none = .jsbool false
    ∧ dHiddenGetY.get = some (.fn 3)
    ∧ dHiddenGetY.value = some .undefV := by
  refine ⟨?_, by decide, by decide, rfl, rfl⟩
  intro props defaults n d hl hacc
  simp only [describe] at hl
  refine describeFold_accessor (defaultLayer defaults) _ props [] ?_ n d hl hacc
  intro n0 d0 h0
  simp [alookup] at h0

/-- Witness for C6 (amended): part 1 applied to the map `{"(get) z": fn}`
with no defaults, whose compiled record is as computed. -/
theorem C6_accessor_records_value_undefined_witness :
    (Descriptor.mk none none none (some .undefV) (some (.fn 9)) none).value
      = some JSVal.undefV :=
  C6_accessor_records_value_undefined.1 [("(get) z", .fn 9)] none "z"
    ⟨none, none, none, some .undefV, some (.fn 9), none⟩ (by decide) (by decide)

/-- C8: `create()` is clone-then-constructor — whenever the freshly cloned
object's resolved `constructor` is a function, `createOp` returns the
constructor's result if truthy and the fresh clone otherwise (part 1);
with the default constructor the created object is sealed and adding a new
own property fails with IllegalMutation (parts 2-4); with an overriding
constructor that skips sealing, the created object is unsealed and the
addition succeeds (parts 5-7); and a constructor returning a truthy value
makes that value `create`'s result (part 8). -/
theorem C8_create_clone_ctor_seal :
    (∀ (table : Nat → CtorBehavior) (h : Heap) (p fnId : Nat),
      propRead (cloneEmptyOp h p).1 ((cloneEmptyOp h p).1.length + 1)
          (cloneEmptyOp h p).2 "constructor" = some (.fn fnId) →
      createOp table h p =
        some ((runCtor table (cloneEmptyOp h p).1 (cloneEmptyOp h p).2 fnId).1,
          if truthy (runCtor table (cloneEmptyOp h p).1 (cloneEmptyOp h p).2 fnId).2 then
            (runCtor table (cloneEmptyOp h p).1 (cloneEmptyOp h p).2 fnId).2
          else .objRef (cloneEmptyOp h p).2))
    ∧ createOp demoTable heapA 0 = some (heapASealed, .objRef 1)
    ∧ (heapASealed.get? 1).map JSObj.sealedFlag = some true
    ∧ addOwnProp heapASealed 1 "p" (.num 7) = .illegalMutation
    ∧ createOp demoTable heapB 1 = some (heapBAfter, .objRef 2)
    ∧ (heapBAfter.get? 2).map JSObj.sealedFlag = some false
    ∧ addOwnProp heapBAfter 2 "p" (.num 7) =
        MutResult.ok
          [⟨none, [("constructor", .fn 0)], false⟩,
           ⟨some 0, [("constructor", .fn 1)], false⟩,
           ⟨some 1, [("p", .num 7)], false⟩]
    ∧ createOp demoTable heapC 1 =
        some ([⟨none, [("constructor", .fn 0)], false⟩,
               ⟨some 0, [("constructor", .fn 2)], false⟩,
               ⟨some 1, [], false⟩], .objRef 5) := by
  refine ⟨?_, by decide, by decide, by decide, by decide, by decide, by decide, ?_⟩
  · intro table h p fnId hres
    simp only [createOp]
    rw [hres]
  · rfl

/-- Witness for C8: part 1 applied to the concrete default-constructor
scenario (`heapA`, prototype 0, resolved constructor function 0). -/
theorem C8_create_clone_ctor_seal_witness :
    createOp demoTable heapA 0 =
      some ((runCtor demoTable (cloneEmptyOp heapA 0).1 (cloneEmptyOp heapA 0).2 0).1,
        if truthy (runCtor demoTable (cloneEmptyOp heapA 0).1 (cloneEmptyOp heapA 0).2 0).2 then
          (runCtor demoTable (cloneEmptyOp heapA 0).1 (cloneEmptyOp heapA 0).2 0).2
        else .objRef (cloneEmptyOp heapA 0).2) :=
  C8_create_clone_ctor_seal.1 demoTable heapA 0 0 (by decide)

/-- C9: `compile({"(final) x": 1}).x` has effective attributes
`value = 1`, `writable = false`, `configurable = false`,
`enumerable = true` (the own layer sets the first three; enumerability
falls through to the all-true baseline). -/
theorem C9_final_attrs :
    describe [("(final) x", .num 1)] none = [("x", dFinalX)]
    ∧ effValue dFinalX none = .num 1
    ∧ effWritable dFinalX none = .jsbool false
    ∧ effConfigurable dFinalX none = .jsbool false
    ∧ effEnumerable dFinalX none = .jsbool true := by
  refine ⟨by decide, rfl, rfl, rfl, rfl⟩

/-- C10: with an explicit defaults descriptor, each compiled record falls
back to exactly that object: a plain numeric entry compiles to a record
whose only own key is `value`, for any defaults flags (part 1); every flag
the prefixes did not set reads through as exactly the defaults' field —
`undefined` when absent, not `true` (parts 2-3); the all-true baseline
applies only when no defaults argument is given (part 4). -/
theorem C10_defaults_exact_fallback :
    (∀ (e c w vv : Option JSVal),
      describe [("x", .num 1)] (some (Descriptor.mk e c w vv none none)) =
        [("x", { value := some (.num 1) })])
    ∧ (∀ (e c w vv : Option JSVal),
      effWritable { value := some (.num 1) } (some (Descriptor.mk e c w vv none none)) =
        w.getD .undefV)
    ∧ effWritable { value := some (.num 1) } (some ddEnumTrue) = .undefV
    ∧ effWritable { value := some (.num 1) } none = .jsbool true
    ∧ JSVal.undefV ≠ JSVal.jsbool true := by
  refine ⟨?_, fun e c w vv => rfl, by decide, rfl, by decide⟩
  intro e c w vv
  simp only [describe, List.foldl, describeStep, describeEntry,
    (show parseAnnotatedName "x" = none by decide)]
  simp [alookup, aupdate, finishEntry, isStringVal, isFunctionVal,
    readThrough, defaultLayer, Option.getD, truthy,
    (show headIs "x" '_' = false by decide),
    apply_ite Descriptor.enumerable, ite_self]

end CloneJS
